import Mathlib

/-!
Verification development for the ProtegeDesk Ontology Interchange Engine
(`src/lib/ontology/serializers.tsx`).

The TypeScript source is shallowly embedded below as executable Lean
definitions:

* JS `Map<string, T>` becomes an insertion-ordered association list
  (`OMap`) whose `oset` updates in place when the key exists and appends
  otherwise, exactly as `Map.set` does.
* The wall clock (`new Date()` at the end of every parse routine) becomes
  an explicit `now : Nat` argument, used only for the `lastModified` field.
* `JSON.parse` / `JSON.stringify` and `DOMParser` are platform facilities,
  not repository code; the JSON-LD codec is therefore modelled on a JSON
  value tree (`JsonValue`) and the OWL/XML codec on an XML element tree
  (`XTree`).  The Turtle reader, which the repository implements directly
  over the raw text, is modelled at the string level.
-/

namespace ProtegeDesk

/-! ## JavaScript string helpers

JS truthiness on strings: `""`, `null` and `undefined` are falsy.  `a || b`
on strings therefore returns `b` exactly when `a` is absent or empty.
-/

/-- JS `a || b` where `a` is a string (falsy iff empty). -/
def jsOr (a b : String) : String :=
  if a = "" then b else a

/-- JS `a || b` where `a` may be `undefined` (modelled `Option`). -/
def jsOrOpt (a : Option String) (b : String) : String :=
  match a with
  | some s => jsOr s b
  | none => b

/-- Collapse an optional string to `none` when it is missing or empty,
mirroring a JS truthiness test on a `string | null` value. -/
def truthyStr (a : Option String) : Option String :=
  match a with
  | some s => if s = "" then none else some s
  | none => none

/-- JS `s.startsWith(p)`, modelled structurally over the character list. -/
def jsStartsWith (s p : String) : Bool :=
  p.toList.isPrefixOf s.toList

/-- JS `s.endsWith(p)`, modelled structurally over the character list. -/
def jsEndsWith (s p : String) : Bool :=
  p.toList.isSuffixOf s.toList

/-- JS `s.slice(0, -1)`: the string without its final character. -/
def jsDropLast (s : String) : String :=
  String.mk s.toList.dropLast

/-- JS `s.trim()`: strip leading and trailing whitespace. -/
def jsTrim (s : String) : String :=
  String.mk (((s.toList.dropWhile Char.isWhitespace).reverse.dropWhile
    Char.isWhitespace).reverse)

/-- JS `s.split(sep)` for a one-character separator: the list of runs
between occurrences of `sep` (never empty). -/
def splitOnChar (sep : Char) : List Char → List (List Char)
  | [] => [[]]
  | x :: xs =>
    let r := splitOnChar sep xs
    if x = sep then [] :: r
    else
      match r with
      | y :: ys => (x :: y) :: ys
      | [] => [[x]]

/-- JS `s.split(sep).pop()`: the last component of the split (the split of a
string is never empty, so `pop()` never yields `undefined`). -/
def jsSplitPop (sep : Char) (s : String) : String :=
  match (splitOnChar sep s.toList).reverse with
  | x :: _ => String.mk x
  | [] => s

/-- Does `pat` occur as a contiguous run starting at some suffix position? -/
def infixAux (pat : List Char) : List Char → Bool
  | [] => pat.isPrefixOf []
  | c :: rest => pat.isPrefixOf (c :: rest) || infixAux pat rest

/-- JS `s.includes(pat)` (substring containment). -/
def jsIncludes (s pat : String) : Bool :=
  infixAux pat.toList s.toList

/-! ## Ontology data model

Field-for-field image of the entity records the serializer code constructs
(see the object literals in `parseOWLXML`, `parseTurtle`, `parseJSONLD`),
with the field inventory of spec §3.  `annotations`, `properties` and
`propertyAssertions` are opaque to the interchange engine (always set to
`[]` by every parse routine); their element type is modelled as `String`.
-/

inductive PropertyType where
  | ObjectProperty
  | DataProperty
  | AnnotationProperty
deriving DecidableEq, Repr

/-- The serialized spelling of a property type (`owl:${prop.type}` etc.). -/
def PropertyType.toStr : PropertyType → String
  | .ObjectProperty => "ObjectProperty"
  | .DataProperty => "DataProperty"
  | .AnnotationProperty => "AnnotationProperty"

structure OntologyClass where
  id : String
  name : String
  label : Option String := none
  description : Option String := none
  superClasses : List String := []
  disjointWith : List String := []
  equivalentTo : List String := []
  properties : List String := []
  annotations : List String := []
deriving DecidableEq, Repr

structure OntologyProperty where
  id : String
  name : String
  label : Option String := none
  description : Option String := none
  type : PropertyType
  domain : List String := []
  range : List String := []
  superProperties : List String := []
  characteristics : List String := []
  annotations : List String := []
deriving DecidableEq, Repr

structure Individual where
  id : String
  name : String
  label : Option String := none
  types : List String := []
  propertyAssertions : List String := []
  sameAs : List String := []
  differentFrom : List String := []
  annotations : List String := []
deriving DecidableEq, Repr

/-- A JS `Map<string, α>`: an insertion-ordered association list. -/
abbrev OMap (α : Type) := List (String × α)

/-- `Map.has`. -/
def ohas {α : Type} (m : OMap α) (k : String) : Bool :=
  m.any (fun p => p.1 = k)

/-- `Map.get` (`undefined` as `none`). -/
def oget {α : Type} (m : OMap α) (k : String) : Option α :=
  (m.find? (fun p => p.1 = k)).map (·.2)

/-- `Map.set`: update in place when the key is present (keeping insertion
order), append otherwise. -/
def oset {α : Type} (m : OMap α) (k : String) (v : α) : OMap α :=
  if ohas m k then m.map (fun p => if p.1 = k then (k, v) else p)
  else m ++ [(k, v)]

/-- Mutate the entry stored under `k` (the Turtle reader mutates the label
of an entry already in the map). -/
def oupdate {α : Type} (m : OMap α) (k : String) (f : α → α) : OMap α :=
  m.map (fun p => if p.1 = k then (p.1, f p.2) else p)

structure Ontology where
  id : String
  name : String
  version : Option String := none
  imports : List String := []
  classes : OMap OntologyClass := []
  properties : OMap OntologyProperty := []
  individuals : OMap Individual := []
  annotations : List String := []
  lastModified : Nat := 0
deriving DecidableEq, Repr

/-- Erase the timestamp, which is the only field fed from the clock. -/
def stripTime (o : Ontology) : Ontology :=
  { o with lastModified := 0 }

/-! ## IRI resolver (`resolveIRI`, serializers.tsx lines 346–368) -/

def resolveIRI (iri : String) (xmlBase : String) : String :=
  if iri = "" then iri
  else if jsStartsWith iri "http://" || jsStartsWith iri "https://" then iri
  else if jsStartsWith iri "#" then
    let base := if jsEndsWith xmlBase "#" then jsDropLast xmlBase else xmlBase
    base ++ iri
  else xmlBase ++ iri

/-! ## JSON value trees

`JSON.parse` / `JSON.stringify` are platform facilities; the codec under
verification starts from (resp. ends at) the parsed value, modelled here.
Object field lists keep their written order; lookup takes the last
occurrence of a repeated name, as `JSON.parse` does.
-/

inductive JsonValue where
  | null
  | bool (b : Bool)
  | num (n : Int)
  | str (s : String)
  | arr (xs : List JsonValue)
  | obj (fields : List (String × JsonValue))

/-- JS property read `v[k]` for a string key: a field of an object,
`undefined` (here `none`) on every other value. -/
def jget (v : JsonValue) (k : String) : Option JsonValue :=
  match v with
  | .obj fs => fs.foldl (fun acc p => if p.1 = k then some p.2 else acc) none
  | _ => none

/-- JS truthiness of a JSON value. -/
def jtruthy : JsonValue → Bool
  | .null => false
  | .bool b => b
  | .num n => n != 0
  | .str s => s != ""
  | .arr _ => true
  | .obj _ => true

/-- Modelling coercion for values the TypeScript code stores into
`string`-typed fields.  The code performs no conversion at runtime (the
raw value is stored through an unchecked cast); on string values — the
only ones produced by `serializeToJSONLD` and the only ones the claims
exercise — this is the identity. -/
def jsToString : JsonValue → String
  | .str s => s
  | .bool b => if b then "true" else "false"
  | .num n => toString n
  | .null => "null"
  | .arr _ => ""
  | .obj _ => "[object Object]"

/-- JS `typeof v === 'object'` (true for objects, arrays and `null`). -/
def isJsObjectLike : JsonValue → Bool
  | .obj _ => true
  | .arr _ => true
  | .null => true
  | _ => false

/-- One element of a JSON-LD value: `typeof v === 'string' ? v : v?.['@id']`,
then the `filter(Boolean)` truthiness test. -/
def idFromItem (x : JsonValue) : Option String :=
  match x with
  | .str s => if s = "" then none else some s
  | x =>
    match jget x "@id" with
    | some u => if jtruthy u then some (jsToString u) else none
    | none => none

/-- The `extractIds` helper of `parseJSONLD` (also the inlined copies used
for `rdfs:subClassOf` and `owl:imports`): normalize a bare string, an
`{"@id": ...}` object, or an array mixing both, into a flat string list. -/
def extractIds (v : Option JsonValue) : List String :=
  match v with
  | some (.arr xs) => xs.filterMap idFromItem
  | some v => if jtruthy v then (idFromItem v).toList else []
  | none => []

/-- JS `a ?? b` where `a` is a JSON-LD field: only `null` and `undefined`
fall through (an empty string does not). -/
def nullishGet (a : Option JsonValue) (b : String) : String :=
  match a with
  | some .null => b
  | some v => jsToString v
  | none => b

/-- JS `a || b` where `a` is a raw JSON-LD field read through an unchecked
string cast: `b` exactly when the value is absent or falsy. -/
def jsOrJson (a : Option JsonValue) (b : String) : String :=
  match a with
  | some v => if jtruthy v then jsToString v else b
  | none => b

/-! ## JSON-LD serializer (`serializeToJSONLD`, lines 28–116)

The value built here is the object literal passed to `JSON.stringify`;
keys whose value is `undefined` (`owl:versionInfo`, `rdfs:comment`) are
dropped, as `JSON.stringify` drops them.
-/

def classToJson (cls : OntologyClass) : JsonValue :=
  .obj ([("@id", .str cls.id),
         ("@type", .str "owl:Class"),
         ("rdfs:label", .str (jsOrOpt cls.label cls.name))]
    ++ (match cls.description with
        | some d => [("rdfs:comment", .str d)]
        | none => [])
    ++ [("rdfs:subClassOf", .arr (cls.superClasses.map (fun sc => .obj [("@id", .str sc)]))),
        ("owl:disjointWith", .arr (cls.disjointWith.map (fun dw => .obj [("@id", .str dw)])))])

def propToJson (prop : OntologyProperty) : JsonValue :=
  .obj ([("@id", .str prop.id),
         ("@type", .str ("owl:" ++ prop.type.toStr)),
         ("rdfs:label", .str (jsOrOpt prop.label prop.name))]
    ++ (match prop.description with
        | some d => [("rdfs:comment", .str d)]
        | none => [])
    ++ [("rdfs:domain", .arr (prop.domain.map (fun d => .obj [("@id", .str d)]))),
        ("rdfs:range", .arr (prop.range.map (fun r => .obj [("@id", .str r)]))),
        ("rdfs:subPropertyOf", .arr (prop.superProperties.map (fun sp => .obj [("@id", .str sp)])))])

def indToJson (ind : Individual) : JsonValue :=
  .obj [("@id", .str ind.id),
        ("@type", .arr (ind.types.map (fun t => .obj [("@id", .str t)]))),
        ("rdfs:label", .str (jsOrOpt ind.label ind.name))]

def serializeToJSONLD (ontology : Ontology) : JsonValue :=
  .obj ([("@context", .obj [("owl", .str "http://www.w3.org/2002/07/owl#"),
                            ("rdf", .str "http://www.w3.org/1999/02/22-rdf-syntax-ns#"),
                            ("rdfs", .str "http://www.w3.org/2000/01/rdf-schema#"),
                            ("xsd", .str "http://www.w3.org/2001/XMLSchema#")]),
         ("@id", .str ontology.id),
         ("@type", .str "owl:Ontology")]
    ++ (match ontology.version with
        | some v => [("owl:versionInfo", .str v)]
        | none => [])
    ++ [("owl:imports", .arr (ontology.imports.map (fun imp => .obj [("@id", .str imp)]))),
        ("@graph", .arr ((ontology.classes.map (fun p => classToJson p.2))
          ++ (ontology.properties.map (fun p => propToJson p.2))
          ++ (ontology.individuals.map (fun p => indToJson p.2))))])

/-! ## JSON-LD parser (`parseJSONLD`, lines 861–987) -/

/-- The `@type` test of the class branch:
`type === 'owl:Class' || (typeof type === 'string' && type.includes('Class'))`. -/
def isClassType (type? : Option JsonValue) : Bool :=
  match type? with
  | some (.str t) => t = "owl:Class" || jsIncludes t "Class"
  | _ => false

/-- The `@type` test of the property branch:
`typeof type === 'string' && type.includes('Property')`. -/
def isPropType (type? : Option JsonValue) : Bool :=
  match type? with
  | some (.str t) => jsIncludes t "Property"
  | _ => false

/-- The label fallback chain `record['rdfs:label'] ?? id.split('#').pop()
?? id.split('/').pop() ?? id` (`split(...).pop()` is never nullish, so the
chain stops at the first fallback). -/
def jsonldLabel (item : JsonValue) (id : String) : String :=
  nullishGet (jget item "rdfs:label")
    (jsSplitPop '#' id)

/-- Body of the `graph.forEach` callback: classify one `@graph` entry and
insert it into the classes or properties map. -/
def jsonldStep (cp : OMap OntologyClass × OMap OntologyProperty) (item : JsonValue) :
    OMap OntologyClass × OMap OntologyProperty :=
  if ¬ isJsObjectLike item || item matches .null then cp
  else
    match jget item "@id" with
    | some (.str id) =>
      let type? := jget item "@type"
      if isClassType type? then
        let label := jsonldLabel item id
        (oset cp.1 id
          { id := id
            name := label
            label := some label
            description := (jget item "rdfs:comment").map jsToString
            superClasses := extractIds (jget item "rdfs:subClassOf")
            disjointWith := []
            equivalentTo := []
            annotations := []
            properties := [] }, cp.2)
      else if isPropType type? then
        let propType : PropertyType :=
          match type? with
          | some (.str t) =>
            if jsIncludes t "Object" then .ObjectProperty
            else if jsIncludes t "Data" then .DataProperty
            else .AnnotationProperty
          | _ => .AnnotationProperty
        let label := jsonldLabel item id
        (cp.1, oset cp.2 id
          { id := id
            name := label
            label := some label
            description := (jget item "rdfs:comment").map jsToString
            type := propType
            domain := extractIds (jget item "rdfs:domain")
            range := extractIds (jget item "rdfs:range")
            superProperties := []
            characteristics := []
            annotations := [] })
      else cp
    | _ => cp

def parseJSONLD (data : JsonValue) (now : Nat) : Except String Ontology :=
  if ¬ (data matches .obj _) && ¬ (data matches .arr _) then
    .error "Invalid JSON-LD content"
  else
    let graph : List JsonValue :=
      match jget data "@graph" with
      | some (.arr xs) => xs
      | _ => [data]
    let cp := graph.foldl jsonldStep ([], [])
    let imports := extractIds (jget data "owl:imports")
    .ok
      { id := jsOrJson (jget data "@id") "http://example.org/imported-ontology"
        name := jsOrJson (jget data "rdfs:label") "Imported Ontology"
        version := (jget data "owl:versionInfo").map jsToString
        imports := imports
        classes := cp.1
        properties := cp.2
        individuals := []
        annotations := []
        lastModified := now }

/-! ## Turtle parser (`parseTurtle`, lines 744–831)

Line-oriented; the two regexes `/<([^>]+)>/` and `/"([^"]+)"/` each take
the first delimited run with a non-empty body.
-/

/-- First capture of `/open([^close]+)close/`: scan left to right for an
opening delimiter followed by at least one non-closing character and then
the closing delimiter. -/
def firstCapture (openC closeC : Char) : List Char → Option String
  | [] => none
  | c :: rest =>
    if c = openC then
      let body := rest.takeWhile (· ≠ closeC)
      let after := rest.drop body.length
      if body ≠ [] && after ≠ [] then some (String.mk body)
      else firstCapture openC closeC rest
    else firstCapture openC closeC rest

/-- The mutable line-scan state of `parseTurtle`: current subject, current
entity kind, and the two entity maps built so far. -/
structure TurtleState where
  subject : Option String
  kind : Option String
  classes : OMap OntologyClass
  properties : OMap OntologyProperty

/-- `// Extract subject` section of the line callback. -/
def turtleSubject (st : TurtleState) (line : String) : TurtleState :=
  match firstCapture '<' '>' line.toList with
  | some s => { st with subject := some s }
  | none => st

/-- `// Check for class` section of the line callback. -/
def turtleClassLine (st : TurtleState) (line : String) : TurtleState :=
  if jsIncludes line "owl:Class" then
    match st.subject with
    | some subj =>
      { st with
        classes := oset st.classes subj
          { id := subj
            name := jsOr (jsSplitPop '#' subj) (jsOr (jsSplitPop '/' subj) subj)
            superClasses := []
            annotations := []
            properties := []
            disjointWith := []
            equivalentTo := [] }
        kind := some "class" }
    | none => st
  else st

/-- `// Check for properties` section of the line callback. -/
def turtlePropLine (st : TurtleState) (line : String) : TurtleState :=
  if jsIncludes line "owl:ObjectProperty" || jsIncludes line "owl:DatatypeProperty" then
    match st.subject with
    | some subj =>
      { st with
        properties := oset st.properties subj
          { id := subj
            name := jsOr (jsSplitPop '#' subj) (jsOr (jsSplitPop '/' subj) subj)
            type := if jsIncludes line "owl:ObjectProperty" then .ObjectProperty
                    else .DataProperty
            domain := []
            range := []
            superProperties := []
            characteristics := []
            annotations := [] }
        kind := some "property" }
    | none => st
  else st

/-- `// Extract labels` section of the line callback. -/
def turtleLabelLine (st : TurtleState) (line : String) : TurtleState :=
  if jsIncludes line "rdfs:label" then
    match st.subject with
    | some subj =>
      match firstCapture '"' '"' line.toList with
      | some lbl =>
        if st.kind = some "class" && ohas st.classes subj then
          { st with classes := oupdate st.classes subj (fun c => { c with label := some lbl }) }
        else if st.kind = some "property" && ohas st.properties subj then
          { st with
            properties := oupdate st.properties subj (fun p => { p with label := some lbl }) }
        else st
      | none => st
    | none => st
  else st

/-- Body of the `lines.forEach` callback of `parseTurtle`: trim, skip
prefix/comment/blank lines, then run the four sections in order on the
shared mutable state. -/
def turtleLine (st : TurtleState) (rawLine : String) : TurtleState :=
  let line := jsTrim rawLine
  if jsStartsWith line "@prefix" || jsStartsWith line "#" || line = "" then st
  else turtleLabelLine (turtlePropLine (turtleClassLine (turtleSubject st line) line) line) line

def parseTurtle (content : String) (now : Nat) : Ontology :=
  let final := ((splitOnChar '\n' content.toList).map String.mk).foldl turtleLine
    { subject := none, kind := none, classes := [], properties := [] }
  { id := "http://example.org/imported-ontology"
    name := "Imported Ontology"
    version := none
    imports := []
    classes := final.classes
    properties := final.properties
    individuals := []
    annotations := []
    lastModified := now }

/-! ## Structural validator (`validateOntology`, lines 993–1063) -/

def validateOntology (ontology : Ontology) : List String :=
  (if ontology.id = "" || ¬ jsStartsWith ontology.id "http" then
    ["Ontology IRI must be a valid HTTP(S) URI"]
  else [])
  ++ ontology.classes.flatMap (fun p =>
    (if ¬ jsStartsWith p.1 "http" then
      ["Class " ++ p.2.name ++ " has invalid IRI: " ++ p.1]
    else [])
    ++ p.2.superClasses.flatMap (fun sc =>
      if ¬ jsStartsWith sc "http" && ¬ jsStartsWith sc "owl:" && ¬ jsStartsWith sc "rdfs:" then
        ["Class " ++ p.2.name ++ " references invalid superclass: " ++ sc]
      else []))
  ++ ontology.properties.flatMap (fun p =>
    (if ¬ jsStartsWith p.1 "http" then
      ["Property " ++ p.2.name ++ " has invalid IRI: " ++ p.1]
    else [])
    ++ p.2.domain.flatMap (fun d =>
      if ¬ jsStartsWith d "http" && ¬ jsStartsWith d "owl:" && ¬ jsStartsWith d "rdfs:"
          && ¬ jsStartsWith d "xsd:" then
        ["Property " ++ p.2.name ++ " has invalid domain: " ++ d]
      else [])
    ++ p.2.range.flatMap (fun r =>
      if ¬ jsStartsWith r "http" && ¬ jsStartsWith r "owl:" && ¬ jsStartsWith r "rdfs:"
          && ¬ jsStartsWith r "xsd:" then
        ["Property " ++ p.2.name ++ " has invalid range: " ++ r]
      else []))
  ++ ontology.individuals.flatMap (fun p =>
    (if ¬ jsStartsWith p.1 "http" then
      ["Individual " ++ p.2.name ++ " has invalid IRI: " ++ p.1]
    else [])
    ++ p.2.types.flatMap (fun t =>
      if ¬ jsStartsWith t "http" && ¬ jsStartsWith t "owl:" && ¬ jsStartsWith t "rdfs:" then
        ["Individual " ++ p.2.name ++ " references invalid type: " ++ t]
      else []))
  ++ ontology.imports.flatMap (fun imp =>
    if ¬ jsStartsWith imp "http" then ["Invalid import IRI: " ++ imp] else [])

/-! ## XML element trees

`DOMParser` is a platform facility; `parseOWLXML` starts from the parsed
document, modelled as a tree of elements.  Each element carries:

* `tag` — the qualified tag name exactly as written (`tagName`);
* `attrs` — attributes keyed by their literal qualified name
  (`getAttribute`);
* `nsAttrs` — the DOM's namespace-processed attribute view, keyed by
  `(namespaceURI, localName)` (`getAttributeNS`);
* `ownText` — the element's direct text, placed before its child
  elements when concatenating `textContent`.

Document order of a query result is preorder.
-/

inductive XTree where
  | node (tag : String) (attrs : List (String × String))
      (nsAttrs : List ((String × String) × String))
      (ownText : String) (children : List XTree)

def XTree.tag : XTree → String
  | .node t _ _ _ _ => t

def XTree.attrs : XTree → List (String × String)
  | .node _ a _ _ _ => a

def XTree.nsAttrs : XTree → List ((String × String) × String)
  | .node _ _ n _ _ => n

def XTree.children : XTree → List XTree
  | .node _ _ _ _ cs => cs

mutual

/-- `Element.textContent`: all text in the subtree, concatenated. -/
def textContent : XTree → String
  | .node _ _ _ own cs => own ++ textContentList cs

def textContentList : List XTree → String
  | [] => ""
  | c :: cs => textContent c ++ textContentList cs

end

mutual

/-- An element followed by its descendants, in document (pre)order. -/
def selfAndDesc : XTree → List XTree
  | .node t a n o cs => .node t a n o cs :: descList cs

/-- All elements of a forest, in document (pre)order. -/
def descList : List XTree → List XTree
  | [] => []
  | c :: cs => selfAndDesc c ++ descList cs

end

/-- `element.getAttribute(name)` (literal qualified name). -/
def getAttr (e : XTree) (name : String) : Option String :=
  (e.attrs.find? (fun p => p.1 = name)).map (·.2)

/-- `element.getAttributeNS(namespaceURI, localName)` (the DOM method). -/
def domGetAttrNS (e : XTree) (ns localName : String) : Option String :=
  (e.nsAttrs.find? (fun q => q.1 = (ns, localName))).map (·.2)

/-- Does the element carry an attribute with this literal name (the CSS
attribute-presence selector `[name]`)? -/
def hasAttr (e : XTree) (name : String) : Bool :=
  e.attrs.any (fun p => p.1 = name)

/-- The repository's `getAttributeNS` helper (lines 297–328): try the
`rdf:`-prefixed form, the `owl:`-prefixed form, the bare form, then a
namespace-qualified lookup; each step keeps only a non-empty value. -/
def getAttributeNS (element : Option XTree) (localName : String) (ns : Option String) :
    Option String :=
  match element with
  | none => none
  | some e =>
    match truthyStr (getAttr e ("rdf:" ++ localName)) with
    | some v => some v
    | none =>
      match truthyStr (getAttr e ("owl:" ++ localName)) with
      | some v => some v
      | none =>
        match truthyStr (getAttr e localName) with
        | some v => some v
        | none =>
          match ns with
          | some n => truthyStr (domGetAttrNS e n localName)
          | none => none

/-- A `querySelectorAll` over a list of candidate elements with a
comma-list of type selectors. -/
def selectAll (es : List XTree) (tags : List String) : List XTree :=
  es.filter (fun e => tags.contains e.tag)

/-- The descendants searched by `node.querySelectorAll` (self excluded). -/
def descOf (e : XTree) : List XTree :=
  descList e.children

def rdfNS : String := "http://www.w3.org/1999/02/22-rdf-syntax-ns#"

/-! ## OWL/XML parser (`parseOWLXML`, lines 394–711) -/

/-- `resource` attributes of the matching child elements, unresolved. -/
def resourcesOf (node : XTree) (tags : List String) : List String :=
  (selectAll (descOf node) tags).filterMap
    (fun n => getAttributeNS (some n) "resource" (some rdfNS))

/-- `resource` attributes of the matching child elements, each resolved
against the base IRI (the individual-parsing pattern
`rawX ? resolveIRI(rawX, xmlBase) : null`). -/
def resolvedResourcesOf (base : String) (node : XTree) (tags : List String) : List String :=
  (selectAll (descOf node) tags).filterMap
    (fun n => (getAttributeNS (some n) "resource" (some rdfNS)).map (fun r => resolveIRI r base))

/-- The label fallback chain used for every entity kind:
`querySelector('label, rdfs\:label')?.textContent || id.split('#').pop()
|| id.split('/').pop() || id`. -/
def xmlLabel (node : XTree) (id : String) : String :=
  jsOrOpt ((selectAll (descOf node) ["label", "rdfs:label"]).head?.map textContent)
    (jsOr (jsSplitPop '#' id) (jsOr (jsSplitPop '/' id) id))

/-- `querySelector('comment, rdfs\:comment')?.textContent || undefined`. -/
def xmlComment (node : XTree) : Option String :=
  truthyStr ((selectAll (descOf node) ["comment", "rdfs:comment"]).head?.map textContent)

/-- Body of the `classNodes.forEach` callback: one `owl:Class` element. -/
def classStep (classes : OMap OntologyClass) (node : XTree) : OMap OntologyClass :=
  match getAttributeNS (some node) "about" (some rdfNS) with
  | none => classes
  | some id =>
    let label := xmlLabel node id
    oset classes id
      { id := id
        name := label
        label := some label
        description := xmlComment node
        superClasses := resourcesOf node ["subClassOf", "rdfs:subClassOf"]
        annotations := []
        properties := []
        disjointWith := resourcesOf node ["disjointWith", "owl:disjointWith"]
        equivalentTo := resourcesOf node ["equivalentClass", "owl:equivalentClass"] }

/-- Body of the `propNodes.forEach` callback for one property kind. -/
def propStep (ptype : PropertyType) (properties : OMap OntologyProperty) (node : XTree) :
    OMap OntologyProperty :=
  match getAttributeNS (some node) "about" (some rdfNS) with
  | none => properties
  | some id =>
    let label := xmlLabel node id
    oset properties id
      { id := id
        name := label
        label := some label
        description := xmlComment node
        type := ptype
        domain := resourcesOf node ["domain", "rdfs:domain"]
        range := resourcesOf node ["range", "rdfs:range"]
        superProperties := resourcesOf node ["subPropertyOf", "rdfs:subPropertyOf"]
        characteristics := []
        annotations := [] }

/-- Body of the `individualNodes.forEach` callback: one explicit
`owl:NamedIndividual` element; id and references are resolved against
`xml:base`. -/
def namedIndividualStep (xmlBase : String) (individuals : OMap Individual) (node : XTree) :
    OMap Individual :=
  match getAttributeNS (some node) "about" (some rdfNS) with
  | none => individuals
  | some rawId =>
    let id := resolveIRI rawId xmlBase
    let label := xmlLabel node id
    oset individuals id
      { id := id
        name := label
        label := some label
        types := resolvedResourcesOf xmlBase node ["type", "rdf:type"]
        propertyAssertions := []
        annotations := []
        sameAs := resolvedResourcesOf xmlBase node ["sameAs", "owl:sameAs"]
        differentFrom := resolvedResourcesOf xmlBase node ["differentFrom", "owl:differentFrom"] }

/-- The reserved-construct test of the second individual pass. -/
def isOntologyConstruct (tagName : String) : Bool :=
  jsIncludes tagName "Ontology"
    || jsIncludes tagName "Class"
    || jsIncludes tagName "Property"
    || tagName = "RDF"
    || tagName = "rdf:RDF"

/-- Body of the `allElements.forEach` callback: the second individual
pass over every element carrying an `about` attribute. -/
def typedElementStep (xmlBase : String) (classes : OMap OntologyClass)
    (properties : OMap OntologyProperty) (individuals : OMap Individual) (node : XTree) :
    OMap Individual :=
  match getAttributeNS (some node) "about" (some rdfNS) with
  | none => individuals
  | some rawId =>
    let id := resolveIRI rawId xmlBase
    -- Skip if already processed
    if ohas individuals id || ohas classes id || ohas properties id then individuals
    else
      let types := resolvedResourcesOf xmlBase node ["type", "rdf:type"]
      -- If element has types or is not a known ontology construct, treat as individual
      if types.length > 0 || (¬ isOntologyConstruct node.tag && id ≠ "") then
        let label := xmlLabel node id
        oset individuals id
          { id := id
            name := label
            label := some label
            types := types
            propertyAssertions := []
            annotations := []
            sameAs := resolvedResourcesOf xmlBase node ["sameAs", "owl:sameAs"]
            differentFrom :=
              resolvedResourcesOf xmlBase node ["differentFrom", "owl:differentFrom"] }
      else individuals

def parseOWLXML (doc : XTree) (now : Nat) : Except String Ontology :=
  match ((selfAndDesc doc).filter (fun e => e.tag = "parsererror")).head? with
  | some err => .error ("Invalid XML: " ++ textContent err)
  | none =>
    let all := selfAndDesc doc
    let rdfRoot := (all.filter (fun e => e.tag = "RDF" || e.tag = "rdf:RDF")).head?
    let ontologyNode := (all.filter (fun e => e.tag = "Ontology" || e.tag = "owl:Ontology")).head?
    let xmlBase :=
      jsOrOpt (rdfRoot.bind (fun r => getAttr r "xml:base"))
        (jsOrOpt
          (rdfRoot.bind (fun r => domGetAttrNS r "http://www.w3.org/XML/1998/namespace" "base"))
          "")
    let ontologyId :=
      jsOrOpt (getAttributeNS ontologyNode "about" (some rdfNS))
        (jsOr xmlBase "http://example.org/ontology")
    let versionInfo :=
      truthyStr (((selectAll (match ontologyNode with
        | some o => descOf o
        | none => []) ["versionInfo", "owl:versionInfo"]).head?).map textContent)
    let imports :=
      (selectAll (match ontologyNode with
        | some o => descOf o
        | none => []) ["imports", "owl:imports"]).filterMap
        (fun n => getAttributeNS (some n) "resource" (some rdfNS))
    let classes := (selectAll all ["Class", "owl:Class"]).foldl classStep []
    let properties :=
      [("ObjectProperty", PropertyType.ObjectProperty),
       ("DatatypeProperty", PropertyType.DataProperty),
       ("AnnotationProperty", PropertyType.AnnotationProperty)].foldl
        (fun acc pt =>
          (selectAll all [pt.1, "owl:" ++ pt.1]).foldl (propStep pt.2) acc) []
    let individuals :=
      (selectAll all ["NamedIndividual", "owl:NamedIndividual"]).foldl
        (namedIndividualStep xmlBase) []
    let individuals :=
      (all.filter (fun e => hasAttr e "rdf:about" || hasAttr e "about")).foldl
        (typedElementStep xmlBase classes properties) individuals
    .ok
      { id := ontologyId
        name := jsOr (jsSplitPop '#' ontologyId)
          (jsOr (jsSplitPop '/' ontologyId) "Imported Ontology")
        version := versionInfo
        imports := imports
        classes := classes
        properties := properties
        individuals := individuals
        annotations := []
        lastModified := now }

/-! ## Derived predicates, round-trip transforms and concrete inputs -/

def entityPrefixOk (s : String) : Bool :=
  jsStartsWith s "http" || jsStartsWith s "owl:" || jsStartsWith s "rdfs:"

def dataPrefixOk (s : String) : Bool :=
  jsStartsWith s "http" || jsStartsWith s "owl:" || jsStartsWith s "rdfs:" || jsStartsWith s "xsd:"

def WellFormedOntology (O : Ontology) : Prop :=
  O.id ≠ "" ∧ jsStartsWith O.id "http" = true
  ∧ (∀ p ∈ O.classes, jsStartsWith p.1 "http" = true
      ∧ ∀ sc ∈ p.2.superClasses, entityPrefixOk sc = true)
  ∧ (∀ p ∈ O.properties, jsStartsWith p.1 "http" = true
      ∧ (∀ d ∈ p.2.domain, dataPrefixOk d = true)
      ∧ (∀ r ∈ p.2.range, dataPrefixOk r = true))
  ∧ (∀ p ∈ O.individuals, jsStartsWith p.1 "http" = true
      ∧ ∀ t ∈ p.2.types, entityPrefixOk t = true)
  ∧ (∀ imp ∈ O.imports, jsStartsWith imp "http" = true)

instance {e a : Type} [DecidableEq e] [DecidableEq a] : DecidableEq (Except e a) := fun x y =>
  match x, y with
  | .ok u, .ok v =>
    if h : u = v then isTrue (by rw [h]) else isFalse (by intro hh; cases hh; exact h rfl)
  | .error u, .error v =>
    if h : u = v then isTrue (by rw [h]) else isFalse (by intro hh; cases hh; exact h rfl)
  | .ok _, .error _ => isFalse (by intro hh; cases hh)
  | .error _, .ok _ => isFalse (by intro hh; cases hh)

/-- Document with a relative `rdf:about` on a class and on an individual,
under `xml:base="http://ex.org/onto#"`. -/
def relativeIRIDoc : XTree :=
  .node "rdf:RDF" [("xml:base", "http://ex.org/onto#")] [] ""
    [.node "owl:Class" [("rdf:about", "#A")] [] ""
      [.node "rdfs:subClassOf" [("rdf:resource", "#B")] [] "" []],
     .node "owl:NamedIndividual" [("rdf:about", "#b")] [] "" []]

/-- What survives a JSON-LD round trip of a class: `label` and `name`
collapse to `label || name`, empty-string relationship IRIs are dropped by
the `filter(Boolean)`, and the fields the parser never reads come back
empty. -/
def rtClass (c : OntologyClass) : OntologyClass :=
  { id := c.id
    name := jsOrOpt c.label c.name
    label := some (jsOrOpt c.label c.name)
    description := c.description
    superClasses := c.superClasses.filter (fun sc => sc ≠ "")
    disjointWith := []
    equivalentTo := []
    properties := []
    annotations := [] }

/-- What survives a JSON-LD round trip of a property. -/
def rtProp (p : OntologyProperty) : OntologyProperty :=
  { id := p.id
    name := jsOrOpt p.label p.name
    label := some (jsOrOpt p.label p.name)
    description := p.description
    type := p.type
    domain := p.domain.filter (fun d => d ≠ "")
    range := p.range.filter (fun r => r ≠ "")
    superProperties := []
    characteristics := []
    annotations := [] }

def catTurtleInput : String := "<http://ex.org#Cat> a owl:Class ;\n  rdfs:label \"Cat\" ."

def fluffyElem : XTree :=
  .node "http://ex.org#Fluffy" [("rdf:about", "http://ex.org#fluffy1")] [] "" []

def xsdSuperclassOntology : Ontology :=
  { id := "http://e", name := "e",
    classes := [("http://e#A", { id := "http://e#A", name := "A", superClasses := ["xsd:int"] })] }

def rtWitnessOntology : Ontology :=
  { id := "http://ex.org/onto", name := "onto",
    classes := [("http://ex.org/onto#A",
      { id := "http://ex.org/onto#A", name := "A", label := some "A",
        superClasses := ["http://ex.org/onto#B"] })],
    properties := [("http://ex.org/onto#p",
      { id := "http://ex.org/onto#p", name := "p", label := some "p",
        type := .ObjectProperty, domain := ["http://ex.org/onto#A"] })] }

def labelFallbackOntology : Ontology :=
  { id := "http://e", name := "e",
    classes := [("http://e#A", { id := "http://e#A", name := "A" })] }

/-- Invariant of spec section 3: every key of an entity map equals the
stored entity's own id (as computed by `f`). -/
def IdKeyed {α : Type} (f : α → String) (m : OMap α) : Prop :=
  ∀ p ∈ m, p.1 = f p.2

/-- Element with a reserved tag name and one `rdf:type` child that carries
no `resource` attribute. -/
def typedCornerElem : XTree :=
  .node "owl:Class" [("rdf:about", "http://x")] [] ""
    [.node "rdf:type" [] [] "" []]




/-! ## Helper lemmas about the string primitives -/
theorem startsWith_cons_ne_nil {a : Char} {ps : List Char} {s : String}
    (h : List.isPrefixOf (a :: ps) s.toList = true) : s ≠ "" := by
  intro hs
  subst hs
  simp [List.isPrefixOf] at h

theorem startsWith_head {a : Char} {ps : List Char} {s : String}
    (h : List.isPrefixOf (a :: ps) s.toList = true) : ∃ cs, s.toList = a :: cs := by
  cases hl : s.toList with
  | nil => rw [hl] at h; simp [List.isPrefixOf] at h
  | cons c cs =>
    rw [hl] at h
    rw [List.isPrefixOf_cons₂] at h
    simp at h
    exact ⟨cs, by rw [h.1]⟩

theorem hash_not_http {s : String} (h : jsStartsWith s "#" = true) :
    jsStartsWith s "http://" = false ∧ jsStartsWith s "https://" = false ∧ s ≠ "" := by
  unfold jsStartsWith at *
  have hh : "#".toList = ['#'] := rfl
  rw [hh] at h
  obtain ⟨cs, hcs⟩ := startsWith_head h
  refine ⟨?_, ?_, startsWith_cons_ne_nil h⟩
  · show List.isPrefixOf "http://".toList s.toList = false
    rw [show "http://".toList = 'h' :: "ttp://".toList from rfl, hcs]
    rw [List.isPrefixOf_cons₂]
    simp
  · rw [show "https://".toList = 'h' :: "ttps://".toList from rfl, hcs]
    rw [List.isPrefixOf_cons₂]
    simp

theorem http_ne_empty {s : String}
    (h : (jsStartsWith s "http://" || jsStartsWith s "https://") = true) : s ≠ "" := by
  rcases (Bool.or_eq_true _ _).mp h with h1 | h1
  · exact startsWith_cons_ne_nil
      (show List.isPrefixOf ('h' :: "ttp://".toList) s.toList = true from h1)
  · exact startsWith_cons_ne_nil
      (show List.isPrefixOf ('h' :: "ttps://".toList) s.toList = true from h1)

/-- C6: `resolveIRI` returns `iri` unchanged when it is empty or starts
with `http://` or `https://`; when `iri` starts with `#` it returns the
base with one trailing `#` stripped (if present) concatenated with `iri`,
so `resolveIRI "#Person" "http://ex.org/onto#" = "http://ex.org/onto#Person"`;
otherwise it returns `base ++ iri`.  The function is a total Lean function,
so it never fails. -/
theorem resolveIRI_spec (iri base : String) :
    (iri = "" → resolveIRI iri base = iri)
    ∧ ((jsStartsWith iri "http://" || jsStartsWith iri "https://") = true →
        resolveIRI iri base = iri)
    ∧ (jsStartsWith iri "#" = true →
        resolveIRI iri base =
          (if jsEndsWith base "#" then jsDropLast base else base) ++ iri)
    ∧ (iri ≠ "" → (jsStartsWith iri "http://" || jsStartsWith iri "https://") = false →
        jsStartsWith iri "#" = false → resolveIRI iri base = base ++ iri)
    ∧ resolveIRI "#Person" "http://ex.org/onto#" = "http://ex.org/onto#Person" := by
  refine ⟨?_, ?_, ?_, ?_, by decide⟩
  · intro h; simp [resolveIRI, h]
  · intro h
    have hne := http_ne_empty h
    simp [resolveIRI, hne, h]
  · intro h
    obtain ⟨h1, h2, h3⟩ := hash_not_http h
    simp [resolveIRI, h1, h2, h3, h]
  · intro h1 h2 h3
    simp [resolveIRI, h1, h2, h3]

/-- C6 witness: an absolute IRI is returned unchanged. -/
theorem resolveIRI_spec_witness :
    resolveIRI "http://ex.org/X" "http://ex.org/onto#" = "http://ex.org/X" :=
  (resolveIRI_spec "http://ex.org/X" "http://ex.org/onto#").2.1 (by decide)

/-- C5 amended: `parseJSONLD` raises exactly when the top-level JSON value
is neither an object nor an array (in JS, `typeof [] === 'object'`, so
arrays pass the check); in particular it never raises because an optional
field is missing — the error depends only on the top-level constructor. -/
theorem parseJSONLD_error_iff (v : JsonValue) (now : Nat) :
    (parseJSONLD v now matches Except.error _)
      ↔ ¬ ((v matches JsonValue.obj _) ∨ (v matches JsonValue.arr _)) := by
  cases v <;> simp [parseJSONLD]

/-- C5 counterexample: a top-level JSON array is not a JSON object, yet
`parseJSONLD` does not raise on it, so "raises iff the top-level content
is not a JSON object" fails in the if direction. -/
theorem parseJSONLD_ok_on_array :
    ¬ (JsonValue.arr [] matches JsonValue.obj _)
    ∧ ¬ (parseJSONLD (JsonValue.arr []) 0 matches Except.error _) := by
  refine ⟨by simp, ?_⟩
  simp [parseJSONLD]

/-- C3 amended: every parse routine is a pure function of its input up to
`lastModified`: two calls with the same input but different clock readings
agree on every field after the timestamp is erased. -/
theorem parse_pure_up_to_timestamp (c : String) (v : JsonValue) (d : XTree) (n₁ n₂ : Nat) :
    stripTime (parseTurtle c n₁) = stripTime (parseTurtle c n₂)
    ∧ Except.map stripTime (parseJSONLD v n₁) = Except.map stripTime (parseJSONLD v n₂)
    ∧ Except.map stripTime (parseOWLXML d n₁) = Except.map stripTime (parseOWLXML d n₂) := by
  refine ⟨rfl, ?_, ?_⟩
  · cases v <;> rfl
  · unfold parseOWLXML
    split <;> rfl

/-- C3 counterexample: two calls of `parseTurtle` on the same input text at
different instants return different Ontology values (they differ in
`lastModified`, which is `new Date()` at return). -/
theorem parseTurtle_differs_across_calls : parseTurtle "" 0 ≠ parseTurtle "" 1 := by decide

/-- C9: the JSON-LD document produced by `serializeToJSONLD` has an
`owl:imports` value that is an array with one `{"@id": ...}` object
per import — an array of length 1 (never a bare object) when there is exactly
one import, and the empty array when there are none. -/
theorem owl_imports_always_array (O : Ontology) :
    jget (serializeToJSONLD O) "owl:imports"
      = some (.arr (O.imports.map (fun imp => .obj [("@id", .str imp)])))
    ∧ (∀ i, O.imports = [i] →
        jget (serializeToJSONLD O) "owl:imports" = some (.arr [.obj [("@id", .str i)]]))
    ∧ (O.imports = [] → jget (serializeToJSONLD O) "owl:imports" = some (.arr [])) := by
  have h : jget (serializeToJSONLD O) "owl:imports"
      = some (.arr (O.imports.map (fun imp => .obj [("@id", .str imp)]))) := by
    cases O.version <;> simp [serializeToJSONLD, jget]
  refine ⟨h, ?_, ?_⟩
  · intro i hi; rw [h, hi]; rfl
  · intro hi; rw [h, hi]; rfl

theorem entity_chain (s : String) :
    (jsStartsWith s "http" = false → jsStartsWith s "owl:" = false →
      jsStartsWith s "rdfs:" = true)
      ↔ entityPrefixOk s = true := by
  unfold entityPrefixOk
  cases jsStartsWith s "http" <;> cases jsStartsWith s "owl:" <;>
    cases jsStartsWith s "rdfs:" <;> simp

theorem data_chain (s : String) :
    (jsStartsWith s "http" = false → jsStartsWith s "owl:" = false →
      jsStartsWith s "rdfs:" = false → jsStartsWith s "xsd:" = true)
      ↔ dataPrefixOk s = true := by
  unfold dataPrefixOk
  cases jsStartsWith s "http" <;> cases jsStartsWith s "owl:" <;>
    cases jsStartsWith s "rdfs:" <;> cases jsStartsWith s "xsd:" <;> simp

/-- C4 amended: `validateOntology` on an ontology whose id does not start
with `http` returns a list containing the error about the ontology IRI;
the result is empty exactly when the ontology is well formed per the
code's prefix sets — `superClasses` and individual `types` must start
with `http`, `owl:` or `rdfs:` (not `xsd:`), while `domain`/`range` may
also start with `xsd:`.  The function is total (never raises) and the
iff direction shows every violation is accumulated, never
short-circuited. -/
theorem validateOntology_spec (O : Ontology) :
    (jsStartsWith O.id "http" = false →
      "Ontology IRI must be a valid HTTP(S) URI" ∈ validateOntology O)
    ∧ (validateOntology O = [] ↔ WellFormedOntology O) := by
  constructor
  · intro h
    simp [validateOntology, h]
  · unfold validateOntology WellFormedOntology
    simp [ite_eq_right_iff, entity_chain, data_chain, and_assoc]

theorem truthyStr_some {a : Option String} {v : String} (h : truthyStr a = some v) : v ≠ "" := by
  unfold truthyStr at h
  cases a with
  | none => simp at h
  | some s =>
    by_cases hs : s = "" <;> simp [hs] at h
    exact h ▸ hs

theorem getAttributeNS_ne_empty {e : Option XTree} {l : String} {ns : Option String}
    {v : String} (h : getAttributeNS e l ns = some v) : v ≠ "" := by
  unfold getAttributeNS at h
  cases e with
  | none => simp at h
  | some x =>
    repeat' split at h
    all_goals try simp only [Option.some.injEq] at h
    all_goals first
      | exact truthyStr_some h
      | (rename_i heq; exact h ▸ truthyStr_some heq)
      | simp at h

theorem append_ne_empty_right {a b : String} (hb : b ≠ "") : a ++ b ≠ "" := by
  intro h
  have hd : (a ++ b).data = "".data := by rw [h]
  rw [String.data_append] at hd
  simp only [List.append_eq_nil] at hd
  exact hb (String.ext hd.2)

theorem resolveIRI_ne_empty {iri base : String} (h : iri ≠ "") : resolveIRI iri base ≠ "" := by
  unfold resolveIRI
  split
  · exact fun hh => h (by assumption)
  · split
    · exact h
    · split
      · exact append_ne_empty_right h
      · exact append_ne_empty_right h

theorem oset_of_not_has {α : Type} {m : OMap α} {k : String} (v : α) (h : ohas m k = false) :
    oset m k v = m ++ [(k, v)] := by
  unfold oset
  simp [h]

theorem oset_ne_self {α : Type} {m : OMap α} {k : String} (v : α) (h : ohas m k = false) :
    oset m k v ≠ m := by
  rw [oset_of_not_has v h]
  intro hh
  have := congrArg List.length hh
  simp at this

/-- C2 amended: in the second individual pass of `parseOWLXML`, an element
carrying an `about` attribute whose resolved id is already registered as a
class, property, or individual is skipped (so the first pass wins); an
unregistered element is added as an individual — with id, types, sameAs
and differentFrom resolved against `xml:base` — exactly when its extracted
types list (the `rdf:type` children carrying a truthy `resource`
attribute, resolved) is non-empty or its tag name is not a reserved
ontology-construct name. -/
theorem typedElementStep_spec (xmlBase : String) (classes : OMap OntologyClass)
    (properties : OMap OntologyProperty) (individuals : OMap Individual) (node : XTree)
    (rawId : String)
    (h : getAttributeNS (some node) "about" (some rdfNS) = some rawId) :
    ((ohas individuals (resolveIRI rawId xmlBase)
        || ohas classes (resolveIRI rawId xmlBase)
        || ohas properties (resolveIRI rawId xmlBase)) = true →
      typedElementStep xmlBase classes properties individuals node = individuals)
    ∧ ((ohas individuals (resolveIRI rawId xmlBase)
        || ohas classes (resolveIRI rawId xmlBase)
        || ohas properties (resolveIRI rawId xmlBase)) = false →
      (typedElementStep xmlBase classes properties individuals node
          = oset individuals (resolveIRI rawId xmlBase)
            { id := resolveIRI rawId xmlBase
              name := xmlLabel node (resolveIRI rawId xmlBase)
              label := some (xmlLabel node (resolveIRI rawId xmlBase))
              types := resolvedResourcesOf xmlBase node ["type", "rdf:type"]
              propertyAssertions := []
              annotations := []
              sameAs := resolvedResourcesOf xmlBase node ["sameAs", "owl:sameAs"]
              differentFrom := resolvedResourcesOf xmlBase node ["differentFrom", "owl:differentFrom"] }
        ↔ (resolvedResourcesOf xmlBase node ["type", "rdf:type"] ≠ []
            ∨ isOntologyConstruct node.tag = false))) := by
  have hne : resolveIRI rawId xmlBase ≠ "" := resolveIRI_ne_empty (getAttributeNS_ne_empty h)
  constructor
  · intro hhas
    unfold typedElementStep
    rw [h]
    dsimp only
    simp [hhas]
  · intro hhas
    have hh2 := hhas
    simp only [Bool.or_eq_false_iff] at hh2
    have hI : ohas individuals (resolveIRI rawId xmlBase) = false := hh2.1.1
    unfold typedElementStep
    rw [h]
    dsimp only
    rw [if_neg (by simp [hhas])]
    cases hT : resolvedResourcesOf xmlBase node ["type", "rdf:type"] with
    | nil =>
      cases hC : isOntologyConstruct node.tag with
      | false => simp [hT, hC, hne]
      | true => simp [hT, hC, Ne.symm (oset_ne_self _ hI)]
    | cons head tail => simp [hT]






theorem idKeyed_nil {α : Type} (f : α → String) : IdKeyed f [] := by
  intro p hp
  simp at hp

theorem idKeyed_oset {α : Type} {f : α → String} {m : OMap α} {k : String} {v : α}
    (hm : IdKeyed f m) (hv : f v = k) : IdKeyed f (oset m k v) := by
  unfold oset
  split
  · intro p hp
    rcases List.mem_map.mp hp with ⟨q, hq, hpq⟩
    by_cases h : q.1 = k <;> simp [h] at hpq
    · rw [← hpq]; exact hv.symm
    · rw [← hpq]; exact hm q hq
  · intro p hp
    rcases List.mem_append.mp hp with hq | hq
    · exact hm p hq
    · simp at hq
      rw [hq]
      exact hv.symm

theorem idKeyed_oupdate {α : Type} {f : α → String} {m : OMap α} {k : String} (g : α → α)
    (hm : IdKeyed f m) (hg : ∀ a, f (g a) = f a) : IdKeyed f (oupdate m k g) := by
  unfold oupdate
  intro p hp
  rcases List.mem_map.mp hp with ⟨q, hq, hpq⟩
  by_cases h : q.1 = k <;> simp [h] at hpq
  · rw [← hpq]
    show k = f (g q.2)
    rw [hg, ← h]
    exact hm q hq
  · rw [← hpq]
    exact hm q hq

theorem idKeyed_foldl {α β : Type} {f : α → String} {step : OMap α → β → OMap α}
    (hstep : ∀ m x, IdKeyed f m → IdKeyed f (step m x)) :
    ∀ (xs : List β) (m : OMap α), IdKeyed f m → IdKeyed f (List.foldl step m xs) := by
  intro xs
  induction xs with
  | nil => intro m hm; exact hm
  | cons x xs ih =>
    intro m hm
    exact ih (step m x) (hstep m x hm)

theorem classStep_keyed (m : OMap OntologyClass) (node : XTree)
    (hm : IdKeyed OntologyClass.id m) : IdKeyed OntologyClass.id (classStep m node) := by
  unfold classStep
  split
  · exact hm
  · exact idKeyed_oset hm rfl

theorem propStep_keyed (pt : PropertyType) (m : OMap OntologyProperty) (node : XTree)
    (hm : IdKeyed OntologyProperty.id m) :
    IdKeyed OntologyProperty.id (propStep pt m node) := by
  unfold propStep
  split
  · exact hm
  · exact idKeyed_oset hm rfl

theorem namedIndividualStep_keyed (base : String) (m : OMap Individual) (node : XTree)
    (hm : IdKeyed Individual.id m) :
    IdKeyed Individual.id (namedIndividualStep base m node) := by
  unfold namedIndividualStep
  split
  · exact hm
  · exact idKeyed_oset hm rfl

theorem typedElementStep_keyed (base : String) (cs : OMap OntologyClass)
    (ps : OMap OntologyProperty) (m : OMap Individual) (node : XTree)
    (hm : IdKeyed Individual.id m) :
    IdKeyed Individual.id (typedElementStep base cs ps m node) := by
  unfold typedElementStep
  split
  · exact hm
  · dsimp only
    split
    · exact hm
    · split
      · exact idKeyed_oset hm rfl
      · exact hm

theorem turtleSubject_maps (st : TurtleState) (line : String) :
    (turtleSubject st line).classes = st.classes
    ∧ (turtleSubject st line).properties = st.properties := by
  unfold turtleSubject
  split <;> exact ⟨rfl, rfl⟩

theorem turtleClassLine_keyed (st : TurtleState) (line : String)
    (hc : IdKeyed OntologyClass.id st.classes) :
    IdKeyed OntologyClass.id (turtleClassLine st line).classes
    ∧ (turtleClassLine st line).properties = st.properties := by
  unfold turtleClassLine
  split
  · split
    · exact ⟨idKeyed_oset hc rfl, rfl⟩
    · exact ⟨hc, rfl⟩
  · exact ⟨hc, rfl⟩

theorem turtlePropLine_keyed (st : TurtleState) (line : String)
    (hp : IdKeyed OntologyProperty.id st.properties) :
    IdKeyed OntologyProperty.id (turtlePropLine st line).properties
    ∧ (turtlePropLine st line).classes = st.classes := by
  unfold turtlePropLine
  split
  · split
    · exact ⟨idKeyed_oset hp rfl, rfl⟩
    · exact ⟨hp, rfl⟩
  · exact ⟨hp, rfl⟩

theorem turtleLabelLine_keyed (st : TurtleState) (line : String)
    (hc : IdKeyed OntologyClass.id st.classes)
    (hp : IdKeyed OntologyProperty.id st.properties) :
    IdKeyed OntologyClass.id (turtleLabelLine st line).classes
    ∧ IdKeyed OntologyProperty.id (turtleLabelLine st line).properties := by
  unfold turtleLabelLine
  split
  · split
    · split
      · split
        · dsimp only
          exact ⟨idKeyed_oupdate _ hc (fun a => rfl), hp⟩
        · split
          · dsimp only
            exact ⟨hc, idKeyed_oupdate _ hp (fun a => rfl)⟩
          · exact ⟨hc, hp⟩
      · exact ⟨hc, hp⟩
    · exact ⟨hc, hp⟩
  · exact ⟨hc, hp⟩

theorem turtleLine_keyed (st : TurtleState) (line : String)
    (hc : IdKeyed OntologyClass.id st.classes)
    (hp : IdKeyed OntologyProperty.id st.properties) :
    IdKeyed OntologyClass.id (turtleLine st line).classes
    ∧ IdKeyed OntologyProperty.id (turtleLine st line).properties := by
  by_cases hskip : (jsStartsWith (jsTrim line) "@prefix" || jsStartsWith (jsTrim line) "#"
      || decide (jsTrim line = "")) = true
  · simp only [turtleLine, hskip, if_true]
    exact ⟨hc, hp⟩
  · simp only [turtleLine, hskip, if_false, Bool.not_eq_true] at *
    rw [if_neg (by simp [hskip])]
    have h1 := turtleSubject_maps st (jsTrim line)
    have hc1 : IdKeyed OntologyClass.id (turtleSubject st (jsTrim line)).classes := h1.1 ▸ hc
    have hp1 : IdKeyed OntologyProperty.id (turtleSubject st (jsTrim line)).properties :=
      h1.2 ▸ hp
    have h2 := turtleClassLine_keyed (turtleSubject st (jsTrim line)) (jsTrim line) hc1
    have hp2 : IdKeyed OntologyProperty.id
        (turtleClassLine (turtleSubject st (jsTrim line)) (jsTrim line)).properties :=
      h2.2 ▸ hp1
    have h3 := turtlePropLine_keyed _ (jsTrim line) hp2
    have hc3 : IdKeyed OntologyClass.id
        (turtlePropLine (turtleClassLine (turtleSubject st (jsTrim line)) (jsTrim line))
          (jsTrim line)).classes :=
      h3.2 ▸ h2.1
    exact turtleLabelLine_keyed _ (jsTrim line) hc3 h3.1






theorem jsonldStep_keyed (cp : OMap OntologyClass × OMap OntologyProperty) (item : JsonValue)
    (hc : IdKeyed OntologyClass.id cp.1) (hp : IdKeyed OntologyProperty.id cp.2) :
    IdKeyed OntologyClass.id (jsonldStep cp item).1
    ∧ IdKeyed OntologyProperty.id (jsonldStep cp item).2 := by
  unfold jsonldStep
  split
  · exact ⟨hc, hp⟩
  · split
    · dsimp only
      split
      · exact ⟨idKeyed_oset hc rfl, hp⟩
      · split
        · exact ⟨hc, idKeyed_oset hp rfl⟩
        · exact ⟨hc, hp⟩
    · exact ⟨hc, hp⟩

theorem turtleFold_keyed (lines : List String) (st : TurtleState)
    (hc : IdKeyed OntologyClass.id st.classes)
    (hp : IdKeyed OntologyProperty.id st.properties) :
    IdKeyed OntologyClass.id (lines.foldl turtleLine st).classes
    ∧ IdKeyed OntologyProperty.id (lines.foldl turtleLine st).properties := by
  induction lines generalizing st with
  | nil => exact ⟨hc, hp⟩
  | cons l ls ih =>
    have h := turtleLine_keyed st l hc hp
    exact ih (turtleLine st l) h.1 h.2

theorem jsonldFold_keyed (items : List JsonValue)
    (cp : OMap OntologyClass × OMap OntologyProperty)
    (hc : IdKeyed OntologyClass.id cp.1) (hp : IdKeyed OntologyProperty.id cp.2) :
    IdKeyed OntologyClass.id (items.foldl jsonldStep cp).1
    ∧ IdKeyed OntologyProperty.id (items.foldl jsonldStep cp).2 := by
  induction items generalizing cp with
  | nil => exact ⟨hc, hp⟩
  | cons x xs ih =>
    have h := jsonldStep_keyed cp x hc hp
    exact ih (jsonldStep cp x) h.1 h.2

/-- C8: every Ontology returned by `parseTurtle`, `parseJSONLD` or
`parseOWLXML` satisfies the model invariant that each key of the classes,
properties and individuals maps equals the `id` field of the entity
stored under it. -/
theorem parse_maps_keyed_by_id (c : String) (v : JsonValue) (d : XTree) (n : Nat) :
    ((∀ p ∈ (parseTurtle c n).classes, p.1 = p.2.id)
      ∧ (∀ p ∈ (parseTurtle c n).properties, p.1 = p.2.id)
      ∧ (∀ p ∈ (parseTurtle c n).individuals, p.1 = p.2.id))
    ∧ (∀ o, parseJSONLD v n = Except.ok o →
        (∀ p ∈ o.classes, p.1 = p.2.id)
        ∧ (∀ p ∈ o.properties, p.1 = p.2.id)
        ∧ (∀ p ∈ o.individuals, p.1 = p.2.id))
    ∧ (∀ o, parseOWLXML d n = Except.ok o →
        (∀ p ∈ o.classes, p.1 = p.2.id)
        ∧ (∀ p ∈ o.properties, p.1 = p.2.id)
        ∧ (∀ p ∈ o.individuals, p.1 = p.2.id)) := by
  refine ⟨?_, ?_, ?_⟩
  · have h := turtleFold_keyed ((splitOnChar '\n' c.toList).map String.mk)
      { subject := none, kind := none, classes := [], properties := [] }
      (idKeyed_nil _) (idKeyed_nil _)
    exact ⟨h.1, h.2, fun p hp => by simp [parseTurtle] at hp⟩
  · intro o ho
    unfold parseJSONLD at ho
    split at ho
    · exact absurd ho (by simp)
    · simp only [Except.ok.injEq] at ho
      subst ho
      have h := jsonldFold_keyed (match jget v "@graph" with
        | some (.arr xs) => xs
        | _ => [v]) ([], []) (idKeyed_nil _) (idKeyed_nil _)
      exact ⟨h.1, h.2, fun p hp => by simp at hp⟩
  · intro o ho
    unfold parseOWLXML at ho
    split at ho
    · exact absurd ho (by simp)
    · simp only [Except.ok.injEq] at ho
      subst ho
      refine ⟨?_, ?_, ?_⟩
      · exact idKeyed_foldl (fun m x hm => classStep_keyed m x hm) _ _ (idKeyed_nil _)
      · refine idKeyed_foldl ?_ _ _ (idKeyed_nil _)
        intro m pt hm
        exact idKeyed_foldl (fun m' x hm' => propStep_keyed pt.2 m' x hm') _ m hm
      · refine idKeyed_foldl (fun m x hm => typedElementStep_keyed _ _ _ m x hm) _ _ ?_
        exact idKeyed_foldl (fun m x hm => namedIndividualStep_keyed _ m x hm) _ _ (idKeyed_nil _)






/-- C10: in `parseOWLXML`, class and property ids and their relationship
references are taken verbatim from the `about`/`resource` attributes (the
class/property passes never call `resolveIRI` — they do not even receive
the base IRI), while individual ids and individual-level references are
resolved against `xml:base`; concretely, under
`xml:base="http://ex.org/onto#"` a Class with `rdf:about="#A"` yields a
class keyed by the unresolved string `"#A"` with verbatim superclass
`"#B"`, whereas a NamedIndividual with `rdf:about="#b"` is keyed by the
resolved `"http://ex.org/onto#b"`. -/
theorem parseOWLXML_resolution_scope :
    (∀ (classes : OMap OntologyClass) (node : XTree) (rawId : String),
      getAttributeNS (some node) "about" (some rdfNS) = some rawId →
      classStep classes node
        = oset classes rawId
          { id := rawId
            name := xmlLabel node rawId
            label := some (xmlLabel node rawId)
            description := xmlComment node
            superClasses := resourcesOf node ["subClassOf", "rdfs:subClassOf"]
            annotations := []
            properties := []
            disjointWith := resourcesOf node ["disjointWith", "owl:disjointWith"]
            equivalentTo := resourcesOf node ["equivalentClass", "owl:equivalentClass"] })
    ∧ (∀ (pt : PropertyType) (props : OMap OntologyProperty) (node : XTree) (rawId : String),
      getAttributeNS (some node) "about" (some rdfNS) = some rawId →
      propStep pt props node
        = oset props rawId
          { id := rawId
            name := xmlLabel node rawId
            label := some (xmlLabel node rawId)
            description := xmlComment node
            type := pt
            domain := resourcesOf node ["domain", "rdfs:domain"]
            range := resourcesOf node ["range", "rdfs:range"]
            superProperties := resourcesOf node ["subPropertyOf", "rdfs:subPropertyOf"]
            characteristics := []
            annotations := [] })
    ∧ (∀ (base : String) (inds : OMap Individual) (node : XTree) (rawId : String),
      getAttributeNS (some node) "about" (some rdfNS) = some rawId →
      namedIndividualStep base inds node
        = oset inds (resolveIRI rawId base)
          { id := resolveIRI rawId base
            name := xmlLabel node (resolveIRI rawId base)
            label := some (xmlLabel node (resolveIRI rawId base))
            types := resolvedResourcesOf base node ["type", "rdf:type"]
            propertyAssertions := []
            annotations := []
            sameAs := resolvedResourcesOf base node ["sameAs", "owl:sameAs"]
            differentFrom := resolvedResourcesOf base node ["differentFrom", "owl:differentFrom"] })
    ∧ Except.map (fun o => o.classes) (parseOWLXML relativeIRIDoc 0)
        = Except.ok [("#A",
            { id := "#A"
              name := "A"
              label := some "A"
              description := none
              superClasses := ["#B"]
              disjointWith := []
              equivalentTo := []
              properties := []
              annotations := [] })]
    ∧ Except.map (fun o => o.individuals.map (·.1)) (parseOWLXML relativeIRIDoc 0)
        = Except.ok ["http://ex.org/onto#b"] := by
  refine ⟨?_, ?_, ?_, by decide, by decide⟩
  · intro classes node rawId h
    unfold classStep
    rw [h]
  · intro pt props node rawId h
    unfold propStep
    rw [h]
  · intro base inds node rawId h
    unfold namedIndividualStep
    rw [h]







theorem jget_classToJson_id (c : OntologyClass) :
    jget (classToJson c) "@id" = some (.str c.id) := by
  cases hd : c.description <;> simp [classToJson, jget, hd]

theorem jget_classToJson_type (c : OntologyClass) :
    jget (classToJson c) "@type" = some (.str "owl:Class") := by
  cases hd : c.description <;> simp [classToJson, jget, hd]

theorem jget_classToJson_label (c : OntologyClass) :
    jget (classToJson c) "rdfs:label" = some (.str (jsOrOpt c.label c.name)) := by
  cases hd : c.description <;> simp [classToJson, jget, hd]

theorem jget_classToJson_comment (c : OntologyClass) :
    jget (classToJson c) "rdfs:comment" = c.description.map JsonValue.str := by
  cases hd : c.description <;> simp [classToJson, jget, hd]

theorem jget_classToJson_subClassOf (c : OntologyClass) :
    jget (classToJson c) "rdfs:subClassOf"
      = some (.arr (c.superClasses.map (fun sc => .obj [("@id", .str sc)]))) := by
  cases hd : c.description <;> simp [classToJson, jget, hd]

theorem extractIds_atIds (xs : List String) :
    extractIds (some (.arr (xs.map (fun x => .obj [("@id", .str x)]))))
      = xs.filter (fun x => x ≠ "") := by
  induction xs with
  | nil => rfl
  | cons x xs ih =>
    simp only [List.map_cons, extractIds, List.filterMap_cons, List.filter_cons] at *
    by_cases hx : x = ""
    · simp [idFromItem, jget, jtruthy, hx] at *
      exact ih
    · simp [idFromItem, jget, jtruthy, hx] at *
      exact ⟨rfl, ih⟩






theorem isJsObjectLike_classToJson (c : OntologyClass) :
    isJsObjectLike (classToJson c) = true := rfl

theorem classToJson_not_null (c : OntologyClass) :
    (classToJson c matches JsonValue.null) = false := rfl

theorem map_jsToString_str (o : Option String) :
    (o.map JsonValue.str).map jsToString = o := by
  cases o <;> rfl

theorem jsonldStep_classToJson (cp : OMap OntologyClass × OMap OntologyProperty)
    (c : OntologyClass) :
    jsonldStep cp (classToJson c) = (oset cp.1 c.id (rtClass c), cp.2) := by
  simp only [jsonldStep, jget_classToJson_id, jget_classToJson_type, jget_classToJson_label,
    jget_classToJson_comment, jget_classToJson_subClassOf, isJsObjectLike_classToJson,
    classToJson_not_null, jsonldLabel, nullishGet, jsToString, map_jsToString_str,
    extractIds_atIds, isClassType]
  simp [rtClass]





theorem jget_propToJson_id (p : OntologyProperty) :
    jget (propToJson p) "@id" = some (.str p.id) := by
  cases hd : p.description <;> simp [propToJson, jget, hd]

theorem jget_propToJson_type (p : OntologyProperty) :
    jget (propToJson p) "@type" = some (.str ("owl:" ++ p.type.toStr)) := by
  cases hd : p.description <;> simp [propToJson, jget, hd]

theorem jget_propToJson_label (p : OntologyProperty) :
    jget (propToJson p) "rdfs:label" = some (.str (jsOrOpt p.label p.name)) := by
  cases hd : p.description <;> simp [propToJson, jget, hd]

theorem jget_propToJson_comment (p : OntologyProperty) :
    jget (propToJson p) "rdfs:comment" = p.description.map JsonValue.str := by
  cases hd : p.description <;> simp [propToJson, jget, hd]

theorem jget_propToJson_domain (p : OntologyProperty) :
    jget (propToJson p) "rdfs:domain"
      = some (.arr (p.domain.map (fun d => .obj [("@id", .str d)]))) := by
  cases hd : p.description <;> simp [propToJson, jget, hd]

theorem jget_propToJson_range (p : OntologyProperty) :
    jget (propToJson p) "rdfs:range"
      = some (.arr (p.range.map (fun r => .obj [("@id", .str r)]))) := by
  cases hd : p.description <;> simp [propToJson, jget, hd]

theorem isJsObjectLike_propToJson (p : OntologyProperty) :
    isJsObjectLike (propToJson p) = true := rfl

theorem propToJson_not_null (p : OntologyProperty) :
    (propToJson p matches JsonValue.null) = false := rfl

theorem isClassType_propType (pt : PropertyType) :
    isClassType (some (.str ("owl:" ++ pt.toStr))) = false := by
  cases pt <;> decide

theorem isPropType_propType (pt : PropertyType) :
    isPropType (some (.str ("owl:" ++ pt.toStr))) = true := by
  cases pt <;> decide

theorem recover_propType (pt : PropertyType) :
    (if jsIncludes ("owl:" ++ pt.toStr) "Object" = true then PropertyType.ObjectProperty
     else if jsIncludes ("owl:" ++ pt.toStr) "Data" = true then PropertyType.DataProperty
     else PropertyType.AnnotationProperty) = pt := by
  cases pt <;> decide

theorem jsonldStep_propToJson (cp : OMap OntologyClass × OMap OntologyProperty)
    (p : OntologyProperty) :
    jsonldStep cp (propToJson p) = (cp.1, oset cp.2 p.id (rtProp p)) := by
  simp only [jsonldStep, jget_propToJson_id, jget_propToJson_type, jget_propToJson_label,
    jget_propToJson_comment, jget_propToJson_domain, jget_propToJson_range,
    isJsObjectLike_propToJson, propToJson_not_null, isClassType_propType, isPropType_propType,
    jsonldLabel, nullishGet, jsToString, map_jsToString_str, extractIds_atIds, recover_propType]
  simp [rtProp]

theorem jget_indToJson_type (i : Individual) :
    jget (indToJson i) "@type"
      = some (.arr (i.types.map (fun t => .obj [("@id", .str t)]))) := by
  simp [indToJson, jget]

theorem jget_indToJson_id (i : Individual) :
    jget (indToJson i) "@id" = some (.str i.id) := by
  simp [indToJson, jget]

theorem isClassType_arr (xs : List JsonValue) :
    isClassType (some (.arr xs)) = false := rfl

theorem isPropType_arr (xs : List JsonValue) :
    isPropType (some (.arr xs)) = false := rfl

theorem jsonldStep_indToJson (cp : OMap OntologyClass × OMap OntologyProperty)
    (i : Individual) :
    jsonldStep cp (indToJson i) = cp := by
  simp only [jsonldStep, jget_indToJson_id, jget_indToJson_type, isClassType_arr,
    isPropType_arr]
  rfl

theorem foldl_classPhase :
    ∀ (cls : List (String × OntologyClass)) (cs : OMap OntologyClass)
      (ps : OMap OntologyProperty),
    (∀ p ∈ cls, p.1 = p.2.id) → (∀ p ∈ cls, ohas cs p.2.id = false) →
    ((cls.map (fun p => p.1)).Nodup) →
    (cls.map (fun p => classToJson p.2)).foldl jsonldStep (cs, ps)
      = (cs ++ cls.map (fun p => (p.1, rtClass p.2)), ps) := by
  intro cls
  induction cls with
  | nil => intro cs ps _ _ _; simp
  | cons q cls ih =>
    intro cs ps hkey hfresh hnodup
    simp only [List.map_cons, List.foldl_cons, jsonldStep_classToJson]
    rw [oset_of_not_has _ (hfresh q (by simp))]
    rw [ih (cs ++ [(q.2.id, rtClass q.2)]) ps
      (fun p hp => hkey p (by simp [hp]))
      ?fresh (List.nodup_cons.mp hnodup).2]
    · rw [hkey q (by simp)]
      simp
    case fresh =>
      intro p hp
      have h1 : ohas cs p.2.id = false := hfresh p (by simp [hp])
      have h2 : p.2.id ≠ q.2.id := by
        intro he
        have hq1 := (List.nodup_cons.mp hnodup).1
        have : p.1 = q.1 := by
          rw [hkey p (by simp [hp]), hkey q (by simp), he]
        refine hq1 ?_
        show q.1 ∈ _
        rw [← this]
        exact List.mem_map_of_mem (fun r => r.1) hp
      unfold ohas at h1 ⊢
      simp [List.any_append, h1, h2, Ne.symm h2]

theorem foldl_propPhase :
    ∀ (prs : List (String × OntologyProperty)) (cs : OMap OntologyClass)
      (ps : OMap OntologyProperty),
    (∀ p ∈ prs, p.1 = p.2.id) → (∀ p ∈ prs, ohas ps p.2.id = false) →
    ((prs.map (fun p => p.1)).Nodup) →
    (prs.map (fun p => propToJson p.2)).foldl jsonldStep (cs, ps)
      = (cs, ps ++ prs.map (fun p => (p.1, rtProp p.2))) := by
  intro prs
  induction prs with
  | nil => intro cs ps _ _ _; simp
  | cons q prs ih =>
    intro cs ps hkey hfresh hnodup
    simp only [List.map_cons, List.foldl_cons, jsonldStep_propToJson]
    rw [oset_of_not_has _ (hfresh q (by simp))]
    rw [ih cs (ps ++ [(q.2.id, rtProp q.2)])
      (fun p hp => hkey p (by simp [hp]))
      ?fresh (List.nodup_cons.mp hnodup).2]
    · rw [hkey q (by simp)]
      simp
    case fresh =>
      intro p hp
      have h1 : ohas ps p.2.id = false := hfresh p (by simp [hp])
      have h2 : p.2.id ≠ q.2.id := by
        intro he
        have hq1 := (List.nodup_cons.mp hnodup).1
        have : p.1 = q.1 := by
          rw [hkey p (by simp [hp]), hkey q (by simp), he]
        refine hq1 ?_
        show q.1 ∈ _
        rw [← this]
        exact List.mem_map_of_mem (fun r => r.1) hp
      unfold ohas at h1 ⊢
      simp [List.any_append, h1, h2, Ne.symm h2]

theorem foldl_indPhase :
    ∀ (is : List (String × Individual)) (cp : OMap OntologyClass × OMap OntologyProperty),
    (is.map (fun p => indToJson p.2)).foldl jsonldStep cp = cp := by
  intro is
  induction is with
  | nil => intro cp; rfl
  | cons q is ih =>
    intro cp
    simp only [List.map_cons, List.foldl_cons, jsonldStep_indToJson]
    exact ih cp






theorem jget_serialize_graph (O : Ontology) :
    jget (serializeToJSONLD O) "@graph"
      = some (.arr ((O.classes.map (fun p => classToJson p.2))
          ++ ((O.properties.map (fun p => propToJson p.2))
            ++ (O.individuals.map (fun p => indToJson p.2))))) := by
  cases hv : O.version <;> simp [serializeToJSONLD, jget, hv]

theorem serialize_matches_obj (O : Ontology) :
    (serializeToJSONLD O matches JsonValue.obj _) = true := rfl

/-- C1 amended: for every Ontology whose class and property maps satisfy
the key-equals-id invariant with distinct keys, `parseJSONLD` after
`serializeToJSONLD` reconstructs the classes and properties maps with the
same keys in the same order, where each class keeps `id`, `description`
and its non-empty `superClasses` entries, has `name` and `label` both set
to `label || name`, and has `disjointWith`, `equivalentTo`, `properties`
and `annotations` reset to empty; each property keeps `id`, `type`,
`description` and its non-empty `domain`/`range` entries, with
`superProperties` and `characteristics` reset to empty.  Individuals are
not reconstructed, by design. -/
theorem jsonld_roundtrip_amended (O : Ontology) (n : Nat)
    (hCk : ∀ p ∈ O.classes, p.1 = p.2.id)
    (hCn : (O.classes.map (fun p => p.1)).Nodup)
    (hPk : ∀ p ∈ O.properties, p.1 = p.2.id)
    (hPn : (O.properties.map (fun p => p.1)).Nodup) :
    ∃ R, parseJSONLD (serializeToJSONLD O) n = Except.ok R
      ∧ R.classes = O.classes.map (fun p => (p.1, rtClass p.2))
      ∧ R.properties = O.properties.map (fun p => (p.1, rtProp p.2)) := by
  have hfold :
      ((O.classes.map (fun p => classToJson p.2))
        ++ ((O.properties.map (fun p => propToJson p.2))
          ++ (O.individuals.map (fun p => indToJson p.2)))).foldl jsonldStep ([], [])
      = (O.classes.map (fun p => (p.1, rtClass p.2)),
         O.properties.map (fun p => (p.1, rtProp p.2))) := by
    rw [List.foldl_append, List.foldl_append]
    rw [foldl_classPhase O.classes [] [] hCk (fun p _ => rfl) hCn]
    simp only [List.nil_append]
    rw [foldl_propPhase O.properties (O.classes.map (fun p => (p.1, rtClass p.2))) []
      hPk (fun p _ => rfl) hPn]
    rw [foldl_indPhase]
    simp
  unfold parseJSONLD
  rw [if_neg (by simp [serialize_matches_obj])]
  rw [jget_serialize_graph O]
  dsimp only
  rw [hfold]
  exact ⟨_, rfl, rfl, rfl⟩






/-- C7: parsing the two Turtle lines `<http://ex.org#Cat> a owl:Class ;`
and `  rdfs:label "Cat" .` yields exactly one class, keyed
`http://ex.org#Cat`, with that id and label `"Cat"`, and empty properties
and individuals maps. -/
theorem parseTurtle_cat_example :
    (parseTurtle catTurtleInput 0).classes
      = [("http://ex.org#Cat",
          { id := "http://ex.org#Cat", name := "Cat", label := some "Cat",
            description := none, superClasses := [], disjointWith := [], equivalentTo := [],
            properties := [], annotations := [] })]
    ∧ (parseTurtle catTurtleInput 0).properties = []
    ∧ (parseTurtle catTurtleInput 0).individuals = [] := by
  decide

/-- C2 witness: the spec scenario — `<http://ex.org#Fluffy
rdf:about="http://ex.org#fluffy1">` with no `rdf:type` children and a
non-reserved tag is recovered as an individual with id
`http://ex.org#fluffy1`. -/
theorem typedElementStep_spec_witness :
    typedElementStep "" [] [] [] fluffyElem
      = oset ([] : OMap Individual) "http://ex.org#fluffy1"
          { id := "http://ex.org#fluffy1", name := "fluffy1", label := some "fluffy1",
            types := [], propertyAssertions := [], annotations := [],
            sameAs := [], differentFrom := [] } :=
  ((typedElementStep_spec "" [] [] [] fluffyElem "http://ex.org#fluffy1" (by decide)).2
    (by decide)).mpr (Or.inr (by decide))

/-- C8 witness: the invariant instantiated on the one entry that
`parseTurtle` produces for a single class declaration. -/
theorem parse_maps_keyed_by_id_witness :
    "http://a" = OntologyClass.id
      { id := "http://a", name := "http://a", label := none, description := none,
        superClasses := [], disjointWith := [], equivalentTo := [], properties := [],
        annotations := [] } :=
  (parse_maps_keyed_by_id "<http://a> a owl:Class ." (JsonValue.obj [])
      (XTree.node "r" [] [] "" []) 0).1.1
    ("http://a",
      { id := "http://a", name := "http://a", label := none, description := none,
        superClasses := [], disjointWith := [], equivalentTo := [], properties := [],
        annotations := [] })
    (by decide)

/-- C4 witness: a `urn:` ontology id produces the ontology-IRI error. -/
theorem validateOntology_spec_witness :
    "Ontology IRI must be a valid HTTP(S) URI"
      ∈ validateOntology { id := "urn:x", name := "x" } :=
  (validateOntology_spec { id := "urn:x", name := "x" }).1 (by decide)

/-- C4 counterexample: an ontology meeting every prefix condition of the
claim (its one relationship target starts with `xsd:`) is still rejected,
because the code does not accept `xsd:` for superclasses. -/
theorem validateOntology_claim_counterexample :
    jsStartsWith xsdSuperclassOntology.id "http" = true
    ∧ (∀ p ∈ xsdSuperclassOntology.classes, jsStartsWith p.1 "http" = true)
    ∧ (∀ p ∈ xsdSuperclassOntology.classes, ∀ sc ∈ p.2.superClasses, dataPrefixOk sc = true)
    ∧ xsdSuperclassOntology.properties = []
    ∧ xsdSuperclassOntology.individuals = []
    ∧ xsdSuperclassOntology.imports = []
    ∧ validateOntology xsdSuperclassOntology ≠ [] := by
  decide

/-- C9 witness: one import serializes to a one-element array. -/
theorem owl_imports_always_array_witness :
    jget (serializeToJSONLD { id := "http://o", name := "o", imports := ["http://i"] })
        "owl:imports"
      = some (.arr [.obj [("@id", .str "http://i")]]) :=
  (owl_imports_always_array { id := "http://o", name := "o", imports := ["http://i"] }).2.1
    "http://i" rfl

/-- C10 witness: the class step applied to a concrete element with a
relative `rdf:about` inserts it under the unresolved id. -/
theorem parseOWLXML_resolution_scope_witness :
    classStep [] (XTree.node "owl:Class" [("rdf:about", "#A")] [] "" [])
      = oset ([] : OMap OntologyClass) "#A"
          { id := "#A", name := "A", label := some "A", description := none,
            superClasses := [], annotations := [], properties := [],
            disjointWith := [], equivalentTo := [] } :=
  parseOWLXML_resolution_scope.1 [] (XTree.node "owl:Class" [("rdf:about", "#A")] [] "" [])
    "#A" (by decide)

/-- C1 witness: the amended round trip instantiated on a small concrete
ontology with one class and one property. -/
theorem jsonld_roundtrip_amended_witness :
    ∃ R, parseJSONLD (serializeToJSONLD rtWitnessOntology) 0 = Except.ok R
      ∧ R.classes = rtWitnessOntology.classes.map (fun p => (p.1, rtClass p.2))
      ∧ R.properties = rtWitnessOntology.properties.map (fun p => (p.1, rtProp p.2)) :=
  jsonld_roundtrip_amended rtWitnessOntology 0 (by decide) (by decide) (by decide) (by decide)

/-- C1 counterexample: a class with `label` unset (no value requires any
escaping) is not reconstructed with identical fields — the parser stores
the serialized label into both `name` and `label`, so the round-tripped
classes map differs from the original. -/
theorem jsonld_roundtrip_counterexample :
    Except.map (fun o => o.classes) (parseJSONLD (serializeToJSONLD labelFallbackOntology) 0)
      ≠ Except.ok labelFallbackOntology.classes := by
  decide





/-- C2 counterexample: an element with a reserved tag (`owl:Class`) and one
`rdf:type` child that carries no `resource` attribute has "at least one
rdf:type child" in the claim's words and is unregistered, yet the code
skips it, because the condition tests the extracted types list, not the
presence of children. -/
theorem typedElementStep_claim_counterexample :
    (selectAll (descOf typedCornerElem) ["type", "rdf:type"]).length > 0
    ∧ getAttributeNS (some typedCornerElem) "about" (some rdfNS) = some "http://x"
    ∧ ohas ([] : OMap Individual) (resolveIRI "http://x" "") = false
    ∧ typedElementStep "" [] [] [] typedCornerElem = [] := by
  decide

end ProtegeDesk
